import Mathlib

/-
  Shallow embedding of scheme.js (a small Scheme interpreter in JavaScript).

  The JavaScript source represents every runtime object with native host
  values: numbers (a single IEEE number type), booleans, strings (used as
  symbols), arrays (used both as AST nodes and as list data), `StringLiteral`
  wrapper objects for quoted strings, functions (closures and primitives) and
  `undefined`.  The embedding mirrors that with the `Value` type below;
  numbers are modelled as exact rationals (every numeric literal appearing in
  this development is exactly representable), and JavaScript's `NaN` is a
  separate constructor since it is falsy and never equal to itself.

  Mutable environments are modelled with an explicit store: a list of frames
  addressed by position; a frame holds an association list of bindings and an
  optional parent address, mirroring `Env` objects with their `_parent` link.
  Recursive functions of the source (the reader, the evaluator, `find`) take
  an explicit fuel argument; fuel exhaustion is a distinguished outcome that
  honest callers always avoid by supplying enough fuel.
-/

namespace SchemeJs

/-- JavaScript runtime values as used by scheme.js. -/
inductive Value where
  | num (q : ℚ)
  | nan
  | bool (b : Bool)
  | str (s : String)
  | sym (s : String)
  | list (xs : List Value)
  | closure (params : List String) (body : Value) (envId : Nat)
  | prim (name : String)
  | undefined

/-- Errors: `SyntaxError(message)` thrown by the interpreter itself, and the
host TypeError raised when JavaScript dereferences `undefined`/`null` or calls
a non-function.  `outOfFuel` is an artifact of the fuel-based embedding. -/
inductive Err where
  | syntaxErr (msg : String)
  | hostTypeErr
  | outOfFuel
  deriving DecidableEq, Repr

instance {ε α : Type} [DecidableEq ε] [DecidableEq α] : DecidableEq (Except ε α) := fun a b =>
  match a, b with
  | .ok x, .ok y =>
      if h : x = y then isTrue (by rw [h]) else isFalse (fun hc => h (Except.ok.inj hc))
  | .error x, .error y =>
      if h : x = y then isTrue (by rw [h]) else isFalse (fun hc => h (Except.error.inj hc))
  | .ok _, .error _ => isFalse (fun hc => Except.noConfusion hc)
  | .error _, .ok _ => isFalse (fun hc => Except.noConfusion hc)

/-- Embed an integer as a rational.  (Arithmetic on ℚ is written with
`mkRat` and integer operations throughout, so that every closed evaluation
reduces inside the kernel.) -/
def ratInt (n : ℤ) : ℚ := mkRat n 1

def ratAdd (a b : ℚ) : ℚ := mkRat (a.num * b.den + b.num * a.den) (a.den * b.den)

def ratSub (a b : ℚ) : ℚ := mkRat (a.num * b.den - b.num * a.den) (a.den * b.den)

def ratMul (a b : ℚ) : ℚ := mkRat (a.num * b.num) (a.den * b.den)

/-- `a / b` for `b ≠ 0` (the evaluator maps division by zero to `NaN`;
JavaScript would yield an infinity, which no program here produces). -/
def ratDiv (a b : ℚ) : ℚ :=
  mkRat (a.num * b.den * (if b.num < 0 then -1 else 1)) (a.den * b.num.natAbs)

def ratLtB (a b : ℚ) : Bool := decide (a.num * (b.den : ℤ) < b.num * (a.den : ℤ))

/-- JavaScript truthiness: `false`, `0`, `NaN`, the empty string and
`undefined` are falsy; every object (arrays, `StringLiteral` wrappers,
functions) is truthy. -/
def truthy : Value → Bool
  | .num q => decide (q.num ≠ 0)
  | .nan => false
  | .bool b => b
  | .str _ => true
  | .sym s => decide (s ≠ "")
  | .list _ => true
  | .closure _ _ _ => true
  | .prim _ => true
  | .undefined => false

/- ## Numeric token parsing

`atom` uses `parseInt`, `parseFloat` and `isNaN` (i.e. `Number`) on a token.
The model covers plain decimal spellings — an optional sign, digits, an
optional fractional part — which is the whole numeric grammar exercised by
this interpreter's tokens (hexadecimal, exponent and `Infinity` spellings are
not modelled). -/

/-- Value of a digit run, most significant first. -/
def digitsVal (ds : List Char) : ℤ :=
  ds.foldl (fun a c => a * 10 + ((c.toNat : ℤ) - ('0'.toNat : ℤ))) 0

/-- Split an optional leading sign, returning the sign as `1` or `-1`. -/
def splitSign : List Char → ℤ × List Char
  | '-' :: rest => (-1, rest)
  | '+' :: rest => (1, rest)
  | cs => (1, cs)

/-- `parseInt(token)`: reads an optional sign and then the leading digit run;
`NaN` (here `none`) when no digit follows the sign. -/
def jsParseInt (t : String) : Option ℤ :=
  let (sgn, cs) := splitSign t.toList
  let ds := cs.takeWhile Char.isDigit
  if ds = [] then none else some (sgn * digitsVal ds)

/-- `10 ^ n` on naturals, written so that it always kernel-reduces. -/
def pow10 : Nat → Nat
  | 0 => 1
  | n + 1 => pow10 n * 10

/-- Value of the decimal `±ds.fs` as an exact rational. -/
def decimalVal (sgn : ℤ) (ds fs : List Char) : ℚ :=
  mkRat (sgn * (digitsVal ds * (pow10 fs.length : ℤ) + digitsVal fs)) (pow10 fs.length)

/-- `parseFloat(token)`: reads an optional sign, digits, and an optional
fractional part — the longest valid numeric prefix; `NaN` when there is no
digit at all. -/
def jsParseFloat (t : String) : Option ℚ :=
  let (sgn, cs) := splitSign t.toList
  let ds := cs.takeWhile Char.isDigit
  let rest := cs.dropWhile Char.isDigit
  let fs := match rest with
    | '.' :: r => r.takeWhile Char.isDigit
    | _ => []
  if ds = [] ∧ fs = [] then none
  else some (decimalVal sgn ds fs)

/-- `Number(token)` as used by `isNaN(token)`: the whole string must be a
numeric spelling; a blank string converts to `0`. -/
def jsNumber (t : String) : Option ℚ :=
  if t.toList.all Char.isWhitespace then some (ratInt 0)
  else
    let (sgn, cs) := splitSign t.toList
    let ds := cs.takeWhile Char.isDigit
    let rest := cs.dropWhile Char.isDigit
    match rest with
    | [] => if ds = [] then none else some (decimalVal sgn ds [])
    | '.' :: r =>
      let fs := r.takeWhile Char.isDigit
      if r.dropWhile Char.isDigit = [] ∧ ¬(ds = [] ∧ fs = []) then
        some (decimalVal sgn ds fs)
      else none
    | _ => none

/-- The comparison `parseFloat(token) != value` of `atom`: with `NaN` on
either side the inequation is true. -/
def floatNeqInt : Option ℚ → Option ℤ → Bool
  | some q, some n => decide (q ≠ ratInt n)
  | _, _ => true

/-- The regex test `/".*"/.test(token)`: the pattern is unanchored, so it
succeeds whenever the token CONTAINS two double quotes with no newline
between them — not only when the token is wrapped in quotes. -/
def hasQuotedRun : List Char → Bool
  | [] => false
  | '"' :: rest => closesQuote rest || hasQuotedRun rest
  | _ :: rest => hasQuotedRun rest
where
  closesQuote : List Char → Bool
    | [] => false
    | '"' :: _ => true
    | '\n' :: _ => false
    | _ :: rest => closesQuote rest

def strTest (t : String) : Bool := hasQuotedRun t.toList

/-- `token.slice(1, -1)`: the token with its first and last characters
removed (whatever they are). -/
def sliceInner (t : String) : String := String.mk ((t.toList.drop 1).dropLast)

/-- `atom(token)` — classify one token.  `value == NaN` in the source is
identically false (`NaN` compares unequal to everything), so the first branch
is taken exactly when `isNaN(token)` holds. -/
def atom (token : String) : Value :=
  let value := jsParseInt token
  if (jsNumber token).isNone then
    if token = "#f" ∨ token = "#F" then .bool false
    else if token = "#t" ∨ token = "#T" then .bool true
    else if strTest token then .str (sliceInner token)
    else .sym token
  else if floatNeqInt (jsParseFloat token) value then
    match jsParseFloat token with
    | some q => .num q
    | none => .nan
  else
    match value with
    | some n => .num (ratInt n)
    | none => .nan

/- ## Tokenizer

`tokenize` is the regex chain
`s.replace(/([()])/g,' $1 ').replace(/;(.*)\n/g,' ').match(/[^;]*/g)[0].match(/\S+/g)`.
Each stage is modelled separately; the final `match` yields `null` (here
`none`) when no token remains. -/

/-- Stage 1: surround every parenthesis with spaces. -/
def padParens (cs : List Char) : List Char :=
  (cs.map (fun c => if c = '(' ∨ c = ')' then [' ', c, ' '] else [c])).flatten

/-- Stage 2: each match of `/;(.*)\n/` — a semicolon through the next newline
— is replaced by a single space; a trailing comment with no newline is left
for stage 3.  Fuel-based; `stripComments` supplies ample fuel. -/
def stripCommentsF : Nat → List Char → List Char
  | 0, cs => cs
  | _ + 1, [] => []
  | fuel + 1, c :: rest =>
      if c = ';' then
        if rest.contains '\n' then
          ' ' :: stripCommentsF fuel ((rest.dropWhile (· ≠ '\n')).tail)
        else c :: rest
      else c :: stripCommentsF fuel rest

def stripComments (cs : List Char) : List Char := stripCommentsF (cs.length + 1) cs

/-- Stage 3: `match(/[^;]*/g)[0]` keeps the prefix before the first remaining
semicolon. -/
def cutSemi (cs : List Char) : List Char := cs.takeWhile (· ≠ ';')

/-- Stage 4: `match(/\S+/g)` — maximal runs of non-whitespace. -/
def splitWSF : Nat → List Char → List (List Char)
  | 0, _ => []
  | _ + 1, [] => []
  | fuel + 1, c :: rest =>
      if c.isWhitespace then splitWSF fuel rest
      else (c :: rest.takeWhile (fun d => !d.isWhitespace))
            :: splitWSF fuel (rest.dropWhile (fun d => !d.isWhitespace))

def splitWS (cs : List Char) : List (List Char) := splitWSF (cs.length + 1) cs

/-- `tokenize(s)`: `none` models the `null` that `String.match` returns when
nothing matches — the "no tokens" case, distinct from an empty list. -/
def tokenize (s : String) : Option (List String) :=
  let toks := splitWS (cutSemi (stripComments (padParens s.toList)))
  if toks = [] then none else some (toks.map String.mk)

/- ## Reader

`nested_repr(tokens)` consumes tokens destructively from the front; the model
passes the remaining tokens along explicitly.  The `while (tokens[0] != ')')`
loop is `readListAux`; when the tokens run out mid-list, `tokens[0]` is
`undefined`, the loop body runs, and the recursive call raises the
end-of-input SyntaxError, exactly as in the source.  Both functions take
fuel; `parse` supplies enough for any token list. -/

def readListAux (readF : List String → Except Err (Value × List String)) :
    Nat → List String → List Value → Except Err (Value × List String)
  | 0, _, _ => .error .outOfFuel
  | fuel + 1, toks, acc =>
      if toks.headD "" = ")" then .ok (.list acc, toks.tail)
      else
        match readF toks with
        | .error e => .error e
        | .ok (v, rest) => readListAux readF fuel rest (acc ++ [v])

def readForm : Nat → List String → Except Err (Value × List String)
  | 0, _ => .error .outOfFuel
  | fuel + 1, toks =>
      match toks with
      | [] => .error (.syntaxErr "unexpected EOL")
      | tok :: rest =>
          if tok = "(" then readListAux (readForm fuel) fuel rest []
          else if tok = ")" then .error (.syntaxErr "unexpected )")
          else .ok (atom tok, rest)

/-- `parse(s) = nested_repr(tokenize(s))`.  When `tokenize` yields `null`,
`nested_repr` dereferences it (`tokens.length`) and the host raises a
TypeError — not a SyntaxError. -/
def parse (s : String) : Except Err Value :=
  match tokenize s with
  | none => .error .hostTypeErr
  | some toks =>
      match readForm (toks.length + 2) toks with
      | .error e => .error e
      | .ok (v, _) => .ok v

/- ## Environment chain

An `Env` object is a frame: an association list of bindings plus the
`_parent` link.  The store is the list of all frames ever created, addressed
by position; `Env` values inside `Value.closure` are those addresses. -/

structure Frame where
  bindings : List (String × Value)
  parent : Option Nat

abbrev St := List Frame

/-- Property read `obj[name]` on a frame's own bindings. -/
def lookupB : List (String × Value) → String → Option Value
  | [], _ => none
  | (k, v) :: rest, name => if k = name then some v else lookupB rest name

/-- Property write `obj[name] = v`: overwrite an existing key or add it. -/
def setB : List (String × Value) → String → Value → List (String × Value)
  | [], name, v => [(name, v)]
  | (k, w) :: rest, name, v =>
      if k = name then (k, v) :: rest else (k, w) :: setB rest name v

/-- Write a binding into the frame at address `i`. -/
def stSetAt (st : St) (i : Nat) (name : String) (v : Value) : St :=
  match st.get? i with
  | none => st
  | some fr => st.set i ⟨setB fr.bindings name v, fr.parent⟩

/-- The truthiness test `if (this[variable])` of `Env.prototype.find`: a
binding whose value is falsy is passed over just like a missing one. -/
def ownsTruthy (fr : Frame) (name : String) : Bool :=
  match lookupB fr.bindings name with
  | some v => truthy v
  | none => false

/-- `Env.prototype.find(variable)`: walk outward while `this[variable]` is
falsy; at the root throw `SyntaxError('undefined variable ...')`. -/
def findE (st : St) : Nat → Nat → String → Except Err Nat
  | 0, _, _ => .error .outOfFuel
  | fuel + 1, envId, name =>
      match st.get? envId with
      | none => .error .hostTypeErr
      | some fr =>
          if ownsTruthy fr name then .ok envId
          else
            match fr.parent with
            | none => .error (.syntaxErr ("undefined variable `" ++ name ++ "`"))
            | some p => findE st fuel p name

/- ## Helpers shared by the evaluator and primitives -/

def isUndef : Value → Bool
  | .undefined => true
  | _ => false

/-- Indexing `v[i]`: arrays index their elements, JavaScript strings
(symbols) index their characters, indexing `undefined` raises the host
TypeError, and any other value yields `undefined`. -/
def jsIndexE : Value → Nat → Except Err Value
  | .undefined, _ => .error .hostTypeErr
  | .list xs, i => .ok (xs.getD i .undefined)
  | .sym s, i =>
      .ok (match s.toList.get? i with
            | some c => .sym (String.mk [c])
            | none => .undefined)
  | _, _ => .ok .undefined

/-- The loose comparison `x[i][0] == 'else'` of the cond branch: a JavaScript
string equals `'else'` when it is that spelling; an array is coerced to its
comma-joined text, so a singleton array around such a value also compares
equal; everything else does not. -/
def looseEqElse : Value → Bool
  | .sym s => s = "else"
  | .list [v] => looseEqElse v
  | _ => false

/-- Integer-valued rationals print like JavaScript integers; other rationals
never reach `lisp_string` in this development, and their JavaScript float
formatting is not modelled. -/
def numToString (q : ℚ) : String :=
  if q.den = 1 then toString q.num else toString q.num ++ "/" ++ toString q.den

/- `lisp_string` renders a value back to Scheme-like text (used by the
`quote` branch for non-list arguments). -/
mutual
def lisp_string : Value → String
  | .list xs => "(" ++ String.intercalate " " (lisp_strings xs) ++ ")"
  | .str s => s
  | .closure _ _ _ => "#<function>"
  | .prim _ => "#<function>"
  | .bool b => if b then "#t" else "#f"
  | .num q => numToString q
  | .nan => "NaN"
  | .sym s => s
  | .undefined => "undefined"
def lisp_strings : List Value → List String
  | [] => []
  | v :: vs => lisp_string v :: lisp_strings vs
end

/-- Coercion of a value used as a property key (`this[keys[i]]`,
`env[variable]`).  Symbols are already strings; the remaining coercions
mirror JavaScript string conversion, except that array and function keys are
approximated by a fixed spelling — no program in this development uses a
composite key. -/
def propKey : Value → String
  | .sym s => s
  | .num q => numToString q
  | .nan => "NaN"
  | .bool b => if b then "true" else "false"
  | .undefined => "undefined"
  | .str _ => "[object Object]"
  | .list _ => "[array]"
  | .closure _ _ _ => "[function]"
  | .prim _ => "[function]"

/-- The parameter list captured by `lambda`: `new Env(keys, values, outer)`
iterates `keys[i]` for `i < keys.length`.  A list yields its members' keys; a
bare symbol is a JavaScript string, whose `length`/`[i]` expose its
characters; any other value either is falsy (skipping the loop) or has no
usable `length`, so no parameter is bound. -/
def paramNames : Value → List String
  | .list ps => ps.map propKey
  | .sym s => s.toList.map (fun c => String.mk [c])
  | _ => []

/-- `new Env(keys, values, ...)`: bind each parameter name to the argument in
the same position; a missing argument is `undefined`, extra arguments are
ignored. -/
def bindParams (ps : List String) (args : List Value) : List (String × Value) :=
  (List.range ps.length).foldl (fun bs i => setB bs (ps.getD i "") (args.getD i .undefined)) []

/- ## Native primitives (`lisp_defaults`)

Each is a pure JavaScript function; a primitive value carries its name and is
dispatched here.  JavaScript's implicit numeric coercions for the arithmetic
and comparison operators are modelled only on numbers (other operand types
yield `NaN` respectively `false`, standing in for coercions no program in
this development performs). -/

def primAdd : Value → Value → Value
  | .num a, .num b => .num (ratAdd a b)
  | _, _ => .nan

def primSub : Value → Value → Value
  | .num a, .num b => .num (ratSub a b)
  | _, _ => .nan

def primMul : Value → Value → Value
  | .num a, .num b => .num (ratMul a b)
  | _, _ => .nan

def primDiv : Value → Value → Value
  | .num a, .num b => if b.num = 0 then .nan else .num (ratDiv a b)
  | _, _ => .nan

/-- Strict equality `a === b`.  Numbers and booleans compare by value,
JavaScript strings (symbols) by text, `NaN` equals nothing.  Arrays,
`StringLiteral` wrappers and closures compare by object identity, which the
model cannot observe; they are rendered unequal (two primitive lookups of the
same name do return the same function object, hence equal). -/
def strictEq : Value → Value → Bool
  | .num a, .num b => decide (a = b)
  | .bool a, .bool b => a == b
  | .sym a, .sym b => a == b
  | .prim a, .prim b => a == b
  | .undefined, .undefined => true
  | _, _ => false

/-- The `=` primitive: StringLiteral operands compare by their wrapped text
(`a.strvalue === b.strvalue`; against a non-StringLiteral the missing field
is `undefined` and the comparison fails); otherwise `a === b`. -/
def primEq : Value → Value → Value
  | .str a, .str b => .bool (a == b)
  | .str _, _ => .bool false
  | _, .str _ => .bool false
  | a, b => .bool (strictEq a b)

/-- `>` and `<` on numbers; non-numeric comparisons (JavaScript would coerce)
are not exercised and yield `false`. -/
def primLt : Value → Value → Value
  | .num a, .num b => .bool (ratLtB a b)
  | _, _ => .bool false

def primGt : Value → Value → Value
  | .num a, .num b => .bool (ratLtB b a)
  | _, _ => .bool false

/-- `a && b` / `a || b` return one of their operands, not a boolean. -/
def primAnd (a b : Value) : Value := if truthy a then b else a

def primOr (a b : Value) : Value := if truthy a then a else b

def primNot (a : Value) : Value := .bool (!truthy a)

/-- Arity (`Function.length`) of each primitive, for `length` applied to a
primitive function object. -/
def primArity (name : String) : ℤ :=
  if name = "not" ∨ name = "length" ∨ name = "list" ∨ name = "car" ∨ name = "cdr"
  then 1 else 2

/-- `a.length`: arrays and strings have lengths, functions expose their
arity, `undefined` cannot be dereferenced, and other values yield
`undefined`. -/
def primLength : Value → Except Err Value
  | .list xs => .ok (.num (ratInt xs.length))
  | .sym s => .ok (.num (ratInt s.length))
  | .closure ps _ _ => .ok (.num (ratInt ps.length))
  | .prim n => .ok (.num (ratInt (primArity n)))
  | .undefined => .error .hostTypeErr
  | _ => .ok .undefined

/-- `car`: `a[0]`. -/
def primCar (a : Value) : Except Err Value := jsIndexE a 0

/-- `cdr`: `a.slice(1, a.length)`; values without a `slice` method raise the
host TypeError. -/
def primCdr : Value → Except Err Value
  | .list xs => .ok (.list (xs.drop 1))
  | .sym s => .ok (.sym (String.mk (s.toList.drop 1)))
  | _ => .error .hostTypeErr

/-- `cons`: `[a].concat(b)` — spreads an array `b`, appends any other `b` as
a single element. -/
def primCons (a b : Value) : Value :=
  match b with
  | .list bs => .list (a :: bs)
  | _ => .list [a, b]

/-- Dispatch a primitive by name on its evaluated arguments (JavaScript
functions ignore extra arguments and receive `undefined` for missing
ones). -/
def primApply (name : String) (args : List Value) : Except Err Value :=
  let a := args.getD 0 .undefined
  let b := args.getD 1 .undefined
  if name = "+" then .ok (primAdd a b)
  else if name = "-" then .ok (primSub a b)
  else if name = "*" then .ok (primMul a b)
  else if name = "/" then .ok (primDiv a b)
  else if name = "=" then .ok (primEq a b)
  else if name = ">" then .ok (primGt a b)
  else if name = "<" then .ok (primLt a b)
  else if name = "and" then .ok (primAnd a b)
  else if name = "or" then .ok (primOr a b)
  else if name = "not" then .ok (primNot a)
  else if name = "length" then primLength a
  else if name = "list" then .ok (.list args)
  else if name = "car" then primCar a
  else if name = "cdr" then primCdr a
  else if name = "cons" then .ok (primCons a b)
  else .error .hostTypeErr

/- ## Evaluator

`_eval(x, env)` dispatches on the shape of `x`.  `evalV fuel` is one
evaluator; the loops inside the `cond`, `begin` and application branches are
parameterized over the evaluator one fuel step down, mirroring the source's
inner `_eval` calls.  All recursion is structural in the fuel, so closed
evaluations reduce definitionally. -/

/-- The `cond` loop: check clause shape, reject a non-final `else` when
reached, evaluate the TEST, and on the first truthy TEST return that clause's
CONSEQ — unevaluated, exactly as `retval = x[i][1]` does.  Falling off the
end returns `undefined`. -/
def condLoop (evalF : St → Value → Except Err (Value × St)) :
    St → List Value → Except Err (Value × St)
  | st, [] => .ok (.undefined, st)
  | st, clause :: rest =>
      match jsIndexE clause 0 with
      | .error e => .error e
      | .ok t =>
          match jsIndexE clause 1 with
          | .error e => .error e
          | .ok c =>
              if isUndef t || isUndef c then
                .error (.syntaxErr "wrong use of cond statement")
              else if looseEqElse t && !rest.isEmpty then
                .error (.syntaxErr "unexpected `else` statement")
              else
                match evalF st t with
                | .error e => .error e
                | .ok (tv, st') =>
                    if truthy tv then .ok (c, st') else condLoop evalF st' rest

/-- The `begin` loop: evaluate in order, return the last value (`undefined`
for an empty body). -/
def beginLoop (evalF : St → Value → Except Err (Value × St)) :
    St → Value → List Value → Except Err (Value × St)
  | st, ret, [] => .ok (ret, st)
  | st, _, e :: rest =>
      match evalF st e with
      | .error er => .error er
      | .ok (v, st') => beginLoop evalF st' v rest

/-- `x.map(e => _eval(e, env))`: left-to-right evaluation threading the
store. -/
def evalSeq (evalF : St → Value → Except Err (Value × St)) :
    St → List Value → Except Err (List Value × St)
  | st, [] => .ok ([], st)
  | st, e :: rest =>
      match evalF st e with
      | .error er => .error er
      | .ok (v, st') =>
          match evalSeq evalF st' rest with
          | .error er => .error er
          | .ok (vs, st'') => .ok (v :: vs, st'')

/-- `proc.apply(null, expressions)`: a closure call appends a fresh frame
binding its parameters to the arguments, whose parent is the closure's
captured environment (the caller's environment plays no part — note the
function takes none), then evaluates the body there; a primitive is applied
directly; anything else is not callable. -/
def applyProc (evalF : St → Nat → Value → Except Err (Value × St)) (st : St) :
    Value → List Value → Except Err (Value × St)
  | .closure ps body envId, args =>
      evalF (st ++ [⟨bindParams ps args, some envId⟩]) st.length body
  | .prim name, args =>
      match primApply name args with
      | .error e => .error e
      | .ok v => .ok (v, st)
  | _, _ => .error .hostTypeErr

/-- An expression in operator position that is not one of the special-form
headers, so that a combination starting with it is evaluated by the generic
application branch. -/
def headNotSpecial : Value → Bool
  | .sym s => !(s == "quote" || s == "if" || s == "cond" || s == "set!"
                || s == "define" || s == "lambda" || s == "begin")
  | _ => true

/-- One step of the evaluator, given the evaluator `recur` for subterms. -/
def evalStep (recur : St → Nat → Value → Except Err (Value × St))
    (st : St) (env : Nat) (x : Value) : Except Err (Value × St) :=
  match x with
  | .sym s =>
      match findE st (st.length + 1) env s with
      | .error e => .error e
      | .ok t =>
          match st.get? t with
          | none => .error .hostTypeErr
          | some fr => .ok ((lookupB fr.bindings s).getD .undefined, st)
  | .list xs =>
      match xs.headD .undefined with
      | .sym "quote" =>
          match xs.getD 1 .undefined with
          | .undefined => .error (.syntaxErr "quote needs an argument")
          | .list l => .ok (.list l, st)
          | lit => .ok (.str (lisp_string lit), st)
      | .sym "if" =>
          let t := xs.getD 1 .undefined
          let c := xs.getD 2 .undefined
          let a := xs.getD 3 .undefined
          if isUndef t || isUndef c || isUndef a then
            .error (.syntaxErr "if takes three arguments")
          else
            match recur st env t with
            | .error e => .error e
            | .ok (tv, st') => recur st' env (if truthy tv then c else a)
      | .sym "cond" => condLoop (fun s e => recur s env e) st xs.tail
      | .sym "set!" =>
          let x1 := xs.getD 1 .undefined
          let x2 := xs.getD 2 .undefined
          if isUndef x1 || isUndef x2 then
            .error (.syntaxErr "set! takes two arguments")
          else
            match findE st (st.length + 1) env (propKey x1) with
            | .error e => .error e
            | .ok t =>
                match recur st env x2 with
                | .error e => .error e
                | .ok (v, st') => .ok (.undefined, stSetAt st' t (propKey x1) v)
      | .sym "define" =>
          let x1 := xs.getD 1 .undefined
          let x2 := xs.getD 2 .undefined
          if isUndef x1 || isUndef x2 then
            .error (.syntaxErr "define takes two arguments")
          else
            match recur st env x2 with
            | .error e => .error e
            | .ok (v, st') => .ok (.undefined, stSetAt st' env (propKey x1) v)
      | .sym "lambda" =>
          let x1 := xs.getD 1 .undefined
          let x2 := xs.getD 2 .undefined
          if isUndef x1 || isUndef x2 then
            .error (.syntaxErr "lambda definition takes two arguments")
          else .ok (.closure (paramNames x1) x2 env, st)
      | .sym "begin" => beginLoop (fun s e => recur s env e) st .undefined xs.tail
      | _ =>
          match evalSeq (fun s e => recur s env e) st xs with
          | .error e => .error e
          | .ok ([], _) => .error .hostTypeErr
          | .ok (proc :: args, st') => applyProc recur st' proc args
  | v => .ok (v, st)

/-- `_eval`, with fuel. -/
def evalV : Nat → St → Nat → Value → Except Err (Value × St)
  | 0, _, _, _ => .error .outOfFuel
  | fuel + 1, st, env, x => evalStep (evalV fuel) st env x

/- ## Global environment

`global_env = new Env(); global_env.insert(lisp_defaults);` then each string
of `lisp_extra` is parsed and evaluated against it. -/

def lisp_defaults : List (String × Value) :=
  [("+", .prim "+"), ("-", .prim "-"), ("*", .prim "*"), ("/", .prim "/"),
   ("=", .prim "="), (">", .prim ">"), ("<", .prim "<"),
   ("and", .prim "and"), ("or", .prim "or"), ("not", .prim "not"),
   ("length", .prim "length"), ("list", .prim "list"),
   ("car", .prim "car"), ("cdr", .prim "cdr"), ("cons", .prim "cons")]

def lisp_extra : List String :=
  ["(define else #t)",
   "(define >= (lambda (x y) (not (< x y))))",
   "(define <= (lambda (x y) (not (> x y))))",
   "(define head car)",
   "(define tail cdr)",
   "(define null? (lambda (l) (= 0 (length l))))",
   "(define map (lambda (f l) (if (null? l) l (cons (f (car l)) (map f (cdr l))))))"]

def state0 : St := [⟨lisp_defaults, none⟩]

/-- The store after the bootstrap library has been evaluated; frame `0` is
`global_env`.  (None of the bootstrap forms can fail; the fallbacks keep the
fold total.) -/
def globalState : St :=
  lisp_extra.foldl
    (fun st src =>
      match parse src with
      | .error _ => st
      | .ok e =>
          match evalV 100 st 0 e with
          | .error _ => st
          | .ok (_, st') => st')
    state0

/-- `_eval(parse(s))` with the default (global) environment, returning the
value. -/
def evalTop (s : String) : Except Err Value :=
  match parse s with
  | .error e => .error e
  | .ok e =>
      match evalV 1000 globalState 0 e with
      | .error er => .error er
      | .ok (v, _) => .ok v

/-- As `evalTop`, but keeping the final store, to observe environment
effects. -/
def evalTopSt (s : String) : Except Err (Value × St) :=
  match parse s with
  | .error e => .error e
  | .ok e => evalV 1000 globalState 0 e

/- # Theorems -/

set_option maxRecDepth 100000

/-- Claim C1 (code bug).  `find` is meant to return the nearest enclosing
scope owning a binding for the name regardless of the bound value, but the
source tests `this[variable]` for truthiness: a single-scope chain whose root
binds `x` to `0` does own a binding for `x`, yet `find` throws the
UnboundVariable SyntaxError; rebinding `x` to the truthy `1` makes the same
lookup succeed. -/
theorem c1_find_skips_falsy_bindings :
    lookupB [("x", Value.num (ratInt 0))] "x" = some (.num (ratInt 0)) ∧
    findE [⟨[("x", .num (ratInt 0))], none⟩] 2 0 "x"
      = .error (.syntaxErr "undefined variable `x`") ∧
    findE [⟨[("x", .num (ratInt 1))], none⟩] 2 0 "x" = .ok 0 :=
  ⟨rfl, rfl, rfl⟩

/-- Claim C4 (code bug).  With the root scope binding `y` to `0`, the form
`(set! y 1)` should mutate that binding, but the `set!` branch locates the
target scope through `find`, whose truthiness test skips the falsy binding
and throws the UnboundVariable SyntaxError instead. -/
theorem c4_set_rejects_falsy_binding :
    lookupB [("y", Value.num (ratInt 0))] "y" = some (.num (ratInt 0)) ∧
    evalV 5 [⟨[("y", .num (ratInt 0))], none⟩] 0
        (.list [.sym "set!", .sym "y", .num (ratInt 1)])
      = .error (.syntaxErr "undefined variable `y`") :=
  ⟨rfl, rfl⟩

/-- Claim C2, counterexample.  `(cond (#t (+ 1 2)))` evaluates to the raw
list `(+ 1 2)` — the CONSEQ is returned without being evaluated, not the
number 3 — and a `cond` whose second clause is a non-final `else` does not
raise a SyntaxError when an earlier TEST is already true. -/
theorem c2_cond_counterexample :
    evalTop "(cond (#t (+ 1 2)))"
      = .ok (.list [.sym "+", .num (ratInt 1), .num (ratInt 2)]) ∧
    evalTop "(cond (#t 1) (else 2) (#f 3))" = .ok (.num (ratInt 1)) :=
  ⟨rfl, rfl⟩

/-- Claim C2, amended.  `cond` checks clauses in order: a well-formed first
clause whose TEST evaluates truthy makes the whole form return that clause's
CONSEQ unevaluated; a falsy TEST passes control to the remaining clauses; and
a clause whose TEST is the literal `else` in non-final position raises the
SyntaxError only when the loop reaches it. -/
theorem c2_cond_first_truthy_returns_raw_conseq :
    (∀ (fuel : Nat) (st st' : St) (env : Nat) (test conseq v : Value)
        (rest : List Value),
      isUndef test = false → isUndef conseq = false →
      (looseEqElse test = false ∨ rest = []) →
      evalV fuel st env test = .ok (v, st') → truthy v = true →
      evalV (fuel + 1) st env
          (.list (.sym "cond" :: .list [test, conseq] :: rest))
        = .ok (conseq, st')) ∧
    (∀ (fuel : Nat) (st st' : St) (env : Nat) (test conseq v : Value)
        (rest : List Value),
      isUndef test = false → isUndef conseq = false →
      (looseEqElse test = false ∨ rest = []) →
      evalV fuel st env test = .ok (v, st') → truthy v = false →
      evalV (fuel + 1) st env
          (.list (.sym "cond" :: .list [test, conseq] :: rest))
        = evalV (fuel + 1) st' env (.list (.sym "cond" :: rest))) ∧
    (∀ (fuel : Nat) (st : St) (env : Nat) (conseq : Value)
        (rest : List Value),
      rest ≠ [] → isUndef conseq = false →
      evalV (fuel + 1) st env
          (.list (.sym "cond" :: .list [.sym "else", conseq] :: rest))
        = .error (.syntaxErr "unexpected `else` statement")) := by
  refine ⟨?_, ?_, ?_⟩
  · intro fuel st st' env test conseq v rest hT hC hE hEv hTr
    have h0 : evalV (fuel + 1) st env
          (.list (.sym "cond" :: .list [test, conseq] :: rest))
        = condLoop (fun s e => evalV fuel s env e) st
            (.list [test, conseq] :: rest) := rfl
    rw [h0]
    simp only [condLoop, jsIndexE, List.getD, List.get?, Option.getD]
    rw [hT, hC]
    simp only [Bool.or_self, Bool.false_or, if_neg Bool.false_ne_true]
    rcases hE with hE | hE
    · rw [hE]
      simp only [Bool.false_and, if_neg Bool.false_ne_true]
      rw [hEv]
      simp [hTr]
    · subst hE
      simp only [List.isEmpty_nil, Bool.not_true, Bool.and_false,
        if_neg Bool.false_ne_true]
      rw [hEv]
      simp [hTr]
  · intro fuel st st' env test conseq v rest hT hC hE hEv hTr
    have h0 : evalV (fuel + 1) st env
          (.list (.sym "cond" :: .list [test, conseq] :: rest))
        = condLoop (fun s e => evalV fuel s env e) st
            (.list [test, conseq] :: rest) := rfl
    have h1 : evalV (fuel + 1) st' env (.list (.sym "cond" :: rest))
        = condLoop (fun s e => evalV fuel s env e) st' rest := rfl
    rw [h0, h1]
    simp only [condLoop, jsIndexE, List.getD, List.get?, Option.getD]
    rw [hT, hC]
    simp only [Bool.or_self, Bool.false_or, if_neg Bool.false_ne_true]
    rcases hE with hE | hE
    · rw [hE]
      simp only [Bool.false_and, if_neg Bool.false_ne_true]
      rw [hEv]
      simp [hTr]
    · subst hE
      simp only [List.isEmpty_nil, Bool.not_true, Bool.and_false,
        if_neg Bool.false_ne_true]
      rw [hEv]
      simp [hTr]
  · intro fuel st env conseq rest hR hC
    have h0 : evalV (fuel + 1) st env
          (.list (.sym "cond" :: .list [.sym "else", conseq] :: rest))
        = condLoop (fun s e => evalV fuel s env e) st
            (.list [.sym "else", conseq] :: rest) := rfl
    rw [h0]
    simp only [condLoop, jsIndexE, List.getD, List.get?, Option.getD]
    rw [hC]
    have hne : rest.isEmpty = false := by
      cases rest with
      | nil => exact absurd rfl hR
      | cons a l => rfl
    simp [looseEqElse, isUndef, hne]

/-- Witness for the amended C2 theorem at concrete inputs. -/
theorem c2_cond_first_truthy_returns_raw_conseq_witness :
    evalV 2 [] 0 (.list [.sym "cond", .list [.bool true, .num (ratInt 7)]])
      = .ok (.num (ratInt 7), []) :=
  c2_cond_first_truthy_returns_raw_conseq.1 1 [] [] 0 (.bool true)
    (.num (ratInt 7)) (.bool true) [] rfl rfl (Or.inr rfl) rfl rfl

/-- Claim C3, counterexample.  `atom("0.0")` takes the integer branch and
yields the very same number as `atom("0")`: the implementation has a single
numeric type, so there is no Float 0.0 distinct from the Integer 0. -/
theorem c3_atom_zero_counterexample :
    atom "0.0" = atom "0" ∧ atom "0" = .num (ratInt 0) :=
  ⟨rfl, rfl⟩

/-- Claim C3, amended.  `atom("0.0")` is the number 0 produced by the integer
branch (`parseFloat("0.0")` equals `parseInt("0.0")`), identical to
`atom("0")`; the general rule does hold: a numeric token whose float re-parse
agrees with its integer parse yields the `parseInt` value, and a numeric
token whose float parse disagrees with (or lacks) an integer parse yields the
`parseFloat` value. -/
theorem c3_atom_numeric_classification :
    (atom "0.0" = .num (ratInt 0) ∧ atom "0" = .num (ratInt 0)) ∧
    (∀ (t : String) (n : ℤ),
      (jsNumber t).isSome = true → jsParseInt t = some n →
      jsParseFloat t = some (ratInt n) → atom t = .num (ratInt n)) ∧
    (∀ (t : String) (q : ℚ),
      (jsNumber t).isSome = true → jsParseFloat t = some q →
      (∀ n : ℤ, jsParseInt t = some n → q ≠ ratInt n) → atom t = .num q) := by
  refine ⟨⟨rfl, rfl⟩, ?_, ?_⟩
  · intro t n hNum hInt hFloat
    have hNone : (jsNumber t).isNone = false := by
      cases h : jsNumber t with
      | none => rw [h] at hNum; exact absurd hNum (by simp)
      | some q => rfl
    simp only [atom, hNone, Bool.false_eq_true, if_false, hInt, hFloat,
      floatNeqInt]
    simp
  · intro t q hNum hFloat hNe
    have hNone : (jsNumber t).isNone = false := by
      cases h : jsNumber t with
      | none => rw [h] at hNum; exact absurd hNum (by simp)
      | some _ => rfl
    cases hInt : jsParseInt t with
    | none =>
        simp only [atom, hNone, Bool.false_eq_true, if_false, hInt, hFloat,
          floatNeqInt, if_true]
    | some n =>
        have hq : q ≠ ratInt n := hNe n hInt
        simp only [atom, hNone, Bool.false_eq_true, if_false, hInt, hFloat,
          floatNeqInt]
        simp [hq]

/-- Witness for the amended C3 theorem: the integer rule at `"15"` and the
float rule at `"0.5"`. -/
theorem c3_atom_numeric_classification_witness :
    atom "15" = .num (ratInt 15) ∧ atom "0.5" = .num (mkRat 1 2) := by
  constructor
  · exact c3_atom_numeric_classification.2.1 "15" 15 rfl rfl rfl
  · exact c3_atom_numeric_classification.2.2 "0.5" (mkRat 1 2) rfl rfl
      (fun n hn => by
        have : some ((15:ℤ) * 0) = some n := by
          rw [← hn]; rfl
        cases this
        intro h
        exact absurd (congrArg Rat.num h) (by decide))

/-- Claim C6, counterexample.  The token `a"b"c` is not wrapped in a pair of
double quotes, yet the unanchored regex `/".*"/` matches inside it, so `atom`
returns a String literal — whose text is the token minus its first and last
characters, quotes retained — instead of the Symbol `a"b"c`. -/
theorem c6_atom_string_counterexample :
    atom "a\"b\"c" = .str "\"b\"" ∧ (Value.str "\"b\"" ≠ .sym "a\"b\"c") :=
  ⟨rfl, fun h => Value.noConfusion h⟩

/-- Claim C6, amended.  For a token that is neither numeric nor a boolean
spelling: when the token merely CONTAINS a double-quoted run (the unanchored
`/".*"/` test), `atom` yields a String literal holding the token with its
first and last characters removed — not necessarily the quotes; only when no
such run occurs is the token a Symbol with its raw text. -/
theorem c6_atom_string_classification :
    ∀ t : String,
      (jsNumber t).isNone = true →
      ¬(t = "#f" ∨ t = "#F") → ¬(t = "#t" ∨ t = "#T") →
      (strTest t = true → atom t = .str (sliceInner t)) ∧
      (strTest t = false → atom t = .sym t) := by
  intro t hNum hF hT
  constructor
  · intro hS
    simp only [atom, hNum, if_true, if_neg hF, if_neg hT, hS]
  · intro hS
    simp only [atom, hNum, if_true, if_neg hF, if_neg hT, hS]
    simp

/-- Witness for the amended C6 theorem: a quoted token and a bare symbol. -/
theorem c6_atom_string_classification_witness :
    atom "\"lit\"" = .str "lit" ∧ atom "xyz" = .sym "xyz" := by
  constructor
  · exact (c6_atom_string_classification "\"lit\"" rfl (by decide) (by decide)).1 rfl
  · exact (c6_atom_string_classification "xyz" rfl (by decide) (by decide)).2 rfl

/-- Claim C8.  A two-branch `(if TEST CONSEQ)` is rejected: whenever fewer
than three operands follow the keyword, the guard finds an `undefined`
operand and throws the SyntaxError before evaluating anything; the two
concrete behaviors of the claim hold against the default environment. -/
theorem c8_if_requires_three_operands :
    (∀ (fuel : Nat) (st : St) (env : Nat) (rest : List Value),
      rest.length < 3 →
      evalV (fuel + 1) st env (.list (.sym "if" :: rest))
        = .error (.syntaxErr "if takes three arguments")) ∧
    evalTop "(if #t 2)" = .error (.syntaxErr "if takes three arguments") ∧
    evalTop "(if (< 5 5) (+ 2 5) (- 10 2))" = .ok (.num (ratInt 8)) := by
  refine ⟨?_, rfl, rfl⟩
  intro fuel st env rest h
  have hg : rest.getD 2 .undefined = .undefined := List.getD_eq_default _ _ (by omega)
  have h0 : evalV (fuel + 1) st env (.list (.sym "if" :: rest))
      = (if isUndef ((Value.sym "if" :: rest).getD 1 .undefined)
            || isUndef ((Value.sym "if" :: rest).getD 2 .undefined)
            || isUndef ((Value.sym "if" :: rest).getD 3 .undefined) then
          .error (.syntaxErr "if takes three arguments")
         else
          match evalV fuel st env ((Value.sym "if" :: rest).getD 1 .undefined) with
          | .error e => .error e
          | .ok (tv, st') =>
              evalV fuel st' env
                (if truthy tv then (Value.sym "if" :: rest).getD 2 .undefined
                 else (Value.sym "if" :: rest).getD 3 .undefined)) := rfl
  rw [h0]
  simp only [List.getD_cons_succ, hg]
  simp [isUndef]

/-- Witness for the universally quantified part of the C8 theorem. -/
theorem c8_if_requires_three_operands_witness :
    evalV 1 [] 0 (.list [.sym "if"])
      = .error (.syntaxErr "if takes three arguments") :=
  c8_if_requires_three_operands.1 0 [] 0 [] (by decide)

/- Helper lemmas for C9: a string of nothing but whitespace survives every
tokenizer stage unchanged and splits into no tokens. -/

theorem padParens_all_ws :
    ∀ cs : List Char, (∀ c ∈ cs, c.isWhitespace = true) → padParens cs = cs := by
  intro cs
  induction cs with
  | nil => intro _; rfl
  | cons c rest ih =>
      intro h
      have hc : c.isWhitespace = true := h c (by simp)
      have hcp : ¬(c = '(' ∨ c = ')') := by
        rintro (rfl | rfl) <;> exact absurd hc (by decide)
      have hrest := ih (fun d hd => h d (by simp [hd]))
      simp only [padParens, List.map_cons, List.flatten_cons, if_neg hcp] at *
      simp [hrest]

theorem stripCommentsF_no_semi :
    ∀ (fuel : Nat) (cs : List Char), (∀ c ∈ cs, c ≠ ';') →
      stripCommentsF fuel cs = cs := by
  intro fuel
  induction fuel with
  | zero => intro cs _; rfl
  | succ fuel ih =>
      intro cs h
      cases cs with
      | nil => rfl
      | cons c rest =>
          have hc : c ≠ ';' := h c (by simp)
          simp only [stripCommentsF, if_neg hc]
          rw [ih rest (fun d hd => h d (by simp [hd]))]

theorem cutSemi_no_semi :
    ∀ cs : List Char, (∀ c ∈ cs, c ≠ ';') → cutSemi cs = cs := by
  intro cs
  induction cs with
  | nil => intro _; rfl
  | cons c rest ih =>
      intro h
      have hc : c ≠ ';' := h c (by simp)
      have hrest := ih (fun d hd => h d (by simp [hd]))
      simp only [cutSemi, List.takeWhile_cons] at *
      simp only [hc, decide_not, if_pos]
      simp [hrest]
      exact fun x hx => h x (by simp [hx])

theorem splitWSF_all_ws :
    ∀ (fuel : Nat) (cs : List Char), (∀ c ∈ cs, c.isWhitespace = true) →
      splitWSF fuel cs = [] := by
  intro fuel
  induction fuel with
  | zero => intro cs _; rfl
  | succ fuel ih =>
      intro cs h
      cases cs with
      | nil => rfl
      | cons c rest =>
          have hc : c.isWhitespace = true := h c (by simp)
          simp only [splitWSF, if_pos hc]
          exact ih rest (fun d hd => h d (by simp [hd]))

/-- Claim C9.  An input with no tokens makes `tokenize` yield the null
sentinel (`none`), never an empty list: so for every whitespace-only string
(including the empty string), and for comment-only inputs; and whenever
`tokenize` yields the sentinel, `parse` dereferences it and surfaces the
host TypeError — neither an Expression nor a SyntaxError. -/
theorem c9_no_tokens_null_sentinel :
    (∀ s : String, (∀ c ∈ s.toList, c.isWhitespace = true) → tokenize s = none) ∧
    (tokenize "" = none ∧ tokenize "   " = none ∧
     tokenize "; comment only" = none ∧ tokenize " ;c\n ;d" = none) ∧
    (∀ s : String, tokenize s = none → parse s = .error .hostTypeErr) := by
  refine ⟨?_, ⟨rfl, rfl, rfl, rfl⟩, ?_⟩
  · intro s h
    have hsemi : ∀ c ∈ s.toList, c ≠ ';' := by
      intro c hc
      have := h c hc
      rintro rfl
      exact absurd this (by decide)
    have h1 : padParens s.toList = s.toList := padParens_all_ws _ h
    have h2 : stripComments (padParens s.toList) = s.toList := by
      rw [h1]; exact stripCommentsF_no_semi _ _ hsemi
    have h3 : cutSemi (stripComments (padParens s.toList)) = s.toList := by
      rw [h2]; exact cutSemi_no_semi _ hsemi
    have h4 : splitWS (cutSemi (stripComments (padParens s.toList))) = [] := by
      rw [h3]; exact splitWSF_all_ws _ _ h
    have h4' : splitWS (cutSemi (stripComments (padParens s.data))) = [] := h4
    simp [tokenize, h4']
  · intro s h
    simp [parse, h]

/-- Witness for C9 at concrete inputs. -/
theorem c9_no_tokens_null_sentinel_witness :
    tokenize "  " = none ∧ parse "  " = .error .hostTypeErr := by
  have h := c9_no_tokens_null_sentinel.1 "  " (by decide)
  exact ⟨h, c9_no_tokens_null_sentinel.2.2 "  " h⟩

/-- Claim C10.  A well-formed `define` evaluates the expression and binds the
result in the current scope; a well-formed `set!` (whose name `find`
resolves) mutates the binding in the owning scope; both return `undefined` —
never the bound value — and the binding write is their only effect on the
store. -/
theorem c10_define_set_return_undefined :
    (∀ (fuel : Nat) (st st' : St) (env : Nat) (name : String)
        (expr v : Value),
      isUndef expr = false → evalV fuel st env expr = .ok (v, st') →
      evalV (fuel + 1) st env (.list [.sym "define", .sym name, expr])
        = .ok (.undefined, stSetAt st' env name v)) ∧
    (∀ (fuel : Nat) (st st' : St) (env t : Nat) (name : String)
        (expr v : Value),
      isUndef expr = false → findE st (st.length + 1) env name = .ok t →
      evalV fuel st env expr = .ok (v, st') →
      evalV (fuel + 1) st env (.list [.sym "set!", .sym name, expr])
        = .ok (.undefined, stSetAt st' t name v)) := by
  constructor
  · intro fuel st st' env name expr v hU hEv
    have h0 : evalV (fuel + 1) st env (.list [.sym "define", .sym name, expr])
        = (if isUndef (Value.sym name) || isUndef expr then
             .error (.syntaxErr "define takes two arguments")
           else
             match evalV fuel st env expr with
             | .error e => .error e
             | .ok (v, st') => .ok (.undefined, stSetAt st' env name v)) := rfl
    rw [h0, hU]
    simp only [isUndef, Bool.or_false]
    rw [hEv]
    simp
  · intro fuel st st' env t name expr v hU hFind hEv
    have h0 : evalV (fuel + 1) st env (.list [.sym "set!", .sym name, expr])
        = (if isUndef (Value.sym name) || isUndef expr then
             .error (.syntaxErr "set! takes two arguments")
           else
             match findE st (st.length + 1) env name with
             | .error e => .error e
             | .ok t =>
                 match evalV fuel st env expr with
                 | .error e => .error e
                 | .ok (v, st') => .ok (.undefined, stSetAt st' t name v)) := rfl
    rw [h0, hU]
    simp only [isUndef, Bool.or_false]
    rw [hFind, hEv]
    simp

/-- Witness for C10: a `define` into an empty root and a `set!` of an
existing truthy binding both return `undefined` and write the binding. -/
theorem c10_define_set_return_undefined_witness :
    evalV 2 [⟨[], none⟩] 0 (.list [.sym "define", .sym "r", .num (ratInt 3)])
      = .ok (.undefined, [⟨[("r", .num (ratInt 3))], none⟩]) ∧
    evalV 2 [⟨[("x", .num (ratInt 12))], none⟩] 0
        (.list [.sym "set!", .sym "x", .num (ratInt 5)])
      = .ok (.undefined, [⟨[("x", .num (ratInt 5))], none⟩]) := by
  constructor
  · exact c10_define_set_return_undefined.1 1 [⟨[], none⟩] [⟨[], none⟩] 0 "r"
      (.num (ratInt 3)) (.num (ratInt 3)) rfl rfl
  · exact c10_define_set_return_undefined.2 1 [⟨[("x", .num (ratInt 12))], none⟩]
      [⟨[("x", .num (ratInt 12))], none⟩] 0 0 "x" (.num (ratInt 5))
      (.num (ratInt 5)) rfl rfl rfl

/- Helper lemmas for C7: reading one form from the front of a token sequence
is oblivious to the tokens that follow it. -/

theorem readForm_nil_not_ok :
    ∀ (fuel : Nat) (v : Value) (rest : List String),
      readForm fuel [] ≠ .ok (v, rest) := by
  intro fuel v rest
  cases fuel <;> simp [readForm]

theorem readListAux_append :
    ∀ (rf : List String → Except Err (Value × List String)),
      (∀ toks v rest extra, rf toks = .ok (v, rest) →
        rf (toks ++ extra) = .ok (v, rest ++ extra)) →
      (∀ v rest, rf [] ≠ .ok (v, rest)) →
      ∀ (fuel : Nat) (toks : List String) (acc : List Value) (v : Value)
        (rest extra : List String),
        readListAux rf fuel toks acc = .ok (v, rest) →
        readListAux rf fuel (toks ++ extra) acc = .ok (v, rest ++ extra) := by
  intro rf hrf hnil fuel
  induction fuel with
  | zero => intro toks acc v rest extra h; simp [readListAux] at h
  | succ fuel ih =>
      intro toks acc v rest extra h
      cases toks with
      | nil =>
          simp only [readListAux, List.headD, List.nil_append] at h ⊢
          rw [if_neg (by decide)] at h
          cases hr : rf [] with
          | error e => rw [hr] at h; exact absurd h (by simp)
          | ok p => exact absurd hr (by rcases p with ⟨v1, r1⟩; exact hnil v1 r1)
      | cons tok rest' =>
          by_cases htok : tok = ")"
          · subst htok
            simp only [readListAux, List.cons_append, List.headD_cons,
              if_pos rfl, List.tail_cons] at h ⊢
            obtain ⟨hv, hrest⟩ : Value.list acc = v ∧ rest' = rest := by
              constructor <;> [exact congrArg Prod.fst (Except.ok.inj h);
                exact congrArg Prod.snd (Except.ok.inj h)]
            subst hv
            subst hrest
            rfl
          · simp only [readListAux, List.cons_append, List.headD_cons,
              if_neg htok] at h ⊢
            cases hr : rf (tok :: rest') with
            | error e => rw [hr] at h; exact absurd h (by simp)
            | ok p =>
                rcases p with ⟨v1, r1⟩
                rw [hr] at h
                have hr2 := hrf (tok :: rest') v1 r1 extra hr
                rw [List.cons_append] at hr2
                rw [hr2]
                exact ih r1 (acc ++ [v1]) v rest extra h

theorem readForm_append :
    ∀ (fuel : Nat) (toks : List String) (v : Value) (rest extra : List String),
      readForm fuel toks = .ok (v, rest) →
      readForm fuel (toks ++ extra) = .ok (v, rest ++ extra) := by
  intro fuel
  induction fuel with
  | zero => intro toks v rest extra h; simp [readForm] at h
  | succ fuel ih =>
      intro toks v rest extra h
      cases toks with
      | nil => simp [readForm] at h
      | cons tok rest' =>
          simp only [readForm, List.cons_append] at h ⊢
          by_cases h1 : tok = "("
          · rw [if_pos h1] at h ⊢
            exact readListAux_append (readForm fuel) ih (readForm_nil_not_ok fuel)
              fuel rest' [] v rest extra h
          · rw [if_neg h1] at h ⊢
            by_cases h2 : tok = ")"
            · rw [if_pos h2] at h
              exact absurd h (by simp)
            · rw [if_neg h2] at h ⊢
              obtain ⟨hv, hrest⟩ : atom tok = v ∧ rest' = rest := by
                constructor <;> [exact congrArg Prod.fst (Except.ok.inj h);
                  exact congrArg Prod.snd (Except.ok.inj h)]
              subst hv
              subst hrest
              rfl

/-- Claim C7.  `parse` reads exactly one balanced top-level form and silently
ignores trailing tokens: `parse("(())(ignored)")` is the one-element list
holding one empty list, `parse("(()())")` is the two-element list of two
empty lists, and in general appending tokens after a successfully read form
changes nothing but the leftover sequence. -/
theorem c7_parse_single_form :
    parse "(())(ignored)" = .ok (.list [.list []]) ∧
    parse "(()())" = .ok (.list [.list [], .list []]) ∧
    (∀ (fuel : Nat) (toks : List String) (v : Value) (rest extra : List String),
      readForm fuel toks = .ok (v, rest) →
      readForm fuel (toks ++ extra) = .ok (v, rest ++ extra)) :=
  ⟨rfl, rfl, readForm_append⟩

/-- Witness for the universally quantified part of C7. -/
theorem c7_parse_single_form_witness :
    readForm 3 ["a", "b"] = .ok (.sym "a", ["b"]) :=
  c7_parse_single_form.2.2 3 ["a"] (.sym "a") [] ["b"] rfl

/-- Claim C5.  A combination whose operator evaluates to a closure is run by
appending one fresh frame that binds the closure's parameter names
positionally to the argument values and whose parent is the closure's
captured environment — the caller's environment is not consulted; a `lambda`
form captures its defining environment in the closure it returns; and
concretely, evaluating `((lambda (a) a) 5)` against the global root
environment leaves no binding for `a` in the root frame: the only new frame
is the call frame, parented to the root. -/
theorem c5_closure_call_lexical_scope :
    (∀ (fuel : Nat) (st st' : St) (env : Nat) (xs : List Value)
        (ps : List String) (body : Value) (cid : Nat) (args : List Value),
      headNotSpecial (xs.headD .undefined) = true →
      evalSeq (fun s e => evalV fuel s env e) st xs
        = .ok (.closure ps body cid :: args, st') →
      evalV (fuel + 1) st env (.list xs)
        = evalV fuel (st' ++ [⟨bindParams ps args, some cid⟩]) st'.length body) ∧
    (∀ (fuel : Nat) (st : St) (env : Nat) (params body : Value),
      isUndef params = false → isUndef body = false →
      evalV (fuel + 1) st env (.list [.sym "lambda", params, body])
        = .ok (.closure (paramNames params) body env, st)) ∧
    (evalTopSt "((lambda (a) a) 5)"
        = .ok (.num (ratInt 5),
            globalState ++ [⟨[("a", .num (ratInt 5))], some 0⟩]) ∧
     lookupB (globalState.headD ⟨[], none⟩).bindings "a" = none) := by
  refine ⟨?_, ?_, rfl, rfl⟩
  · intro fuel st st' env xs ps body cid args hHead hSeq
    have h0 : evalV (fuel + 1) st env (.list xs)
        = evalStep (evalV fuel) st env (.list xs) := rfl
    rw [h0]
    simp only [evalStep]
    split
    · rename_i heq; rw [heq] at hHead; simp [headNotSpecial] at hHead
    · rename_i heq; rw [heq] at hHead; simp [headNotSpecial] at hHead
    · rename_i heq; rw [heq] at hHead; simp [headNotSpecial] at hHead
    · rename_i heq; rw [heq] at hHead; simp [headNotSpecial] at hHead
    · rename_i heq; rw [heq] at hHead; simp [headNotSpecial] at hHead
    · rename_i heq; rw [heq] at hHead; simp [headNotSpecial] at hHead
    · rename_i heq; rw [heq] at hHead; simp [headNotSpecial] at hHead
    · rw [hSeq]; rfl
  · intro fuel st env params body hP hB
    have h0 : evalV (fuel + 1) st env (.list [.sym "lambda", params, body])
        = (if isUndef params || isUndef body then
             .error (.syntaxErr "lambda definition takes two arguments")
           else .ok (.closure (paramNames params) body env, st)) := rfl
    rw [h0, hP, hB]
    simp

/-- Witness for the quantified parts of C5: applying `(lambda (a) a)` to `5`
builds the call frame parented to the closure's environment. -/
theorem c5_closure_call_lexical_scope_witness :
    evalV 4 [⟨[], none⟩] 0
        (.list [.list [.sym "lambda", .list [.sym "a"], .sym "a"],
                .num (ratInt 5)])
      = evalV 3 ([⟨[], none⟩] ++ [⟨bindParams ["a"] [.num (ratInt 5)], some 0⟩])
          1 (.sym "a") ∧
    evalV 1 [⟨[], none⟩] 0
        (.list [.sym "lambda", .list [.sym "a"], .sym "a"])
      = .ok (.closure ["a"] (.sym "a") 0, [⟨[], none⟩]) :=
  ⟨c5_closure_call_lexical_scope.1 3 [⟨[], none⟩] [⟨[], none⟩] 0
      [.list [.sym "lambda", .list [.sym "a"], .sym "a"], .num (ratInt 5)]
      ["a"] (.sym "a") 0 [.num (ratInt 5)] rfl rfl,
   c5_closure_call_lexical_scope.2.1 0 [⟨[], none⟩] 0 (.list [.sym "a"])
      (.sym "a") rfl rfl⟩

end SchemeJs
